import Mathlib

/-!
Verification of the `black-hole-diver` relativistic ray tracer against its
specification.

The Rust sources are shallowly embedded: `f64` values become real numbers,
external numerical routines (the `quadrature` crate's `integrate`, nalgebra's
rotation `slerp`) become explicit function parameters, and fallible code
returns `Option`.
-/

open scoped Classical

namespace BHDiver

/-! ## src/math.rs — rain-angle to map-angle conversion -/

/-- Rust `photon_is_incoming` (src/math.rs): the photon at this rain angle is
incoming iff `theta_rain.cos() < (r/2).sqrt() && theta_rain.cos() < (2/r).sqrt()`. -/
def photon_is_incoming (theta_rain r : ℝ) : Prop :=
  Real.cos theta_rain < Real.sqrt (r / 2) ∧ Real.cos theta_rain < Real.sqrt (2 / r)

/-- Rust `impact_parameter` (src/math.rs):
`r * theta_rain.sin() / ((2/r).sqrt() * theta_rain.cos() - 1)`. -/
noncomputable def impact_parameter (theta_rain r : ℝ) : ℝ :=
  r * Real.sin theta_rain / (Real.sqrt (2 / r) * Real.cos theta_rain - 1)

/-- Rust `turning_point` (src/math.rs): radius of the turning point for impact
parameter `b`: `6 / (1 - 2*((1 - 54/b^2).asin()/3).sin())`. -/
noncomputable def turning_point (b : ℝ) : ℝ :=
  6 / (1 - 2 * Real.sin (Real.arcsin (1 - 54 / b ^ 2) / 3))

/-- Rust `critical_rain_angle` (src/math.rs):
`((27*(2r).sqrt() + r*(r*(6+r)).sqrt()*(r-3)) / (54 + r^3)).acos()`. -/
noncomputable def critical_rain_angle (r : ℝ) : ℝ :=
  Real.arccos ((27 * Real.sqrt (2 * r) + r * Real.sqrt (r * (6 + r)) * (r - 3)) /
    (54 + r ^ 3))

/-- The transformed integrand `integrand(x, b)` nested inside
`map_angle_from_impact_parameter` (src/math.rs). -/
noncomputable def integrand (x b : ℝ) : ℝ :=
  b / (Real.sqrt (1 / (x - 1) ^ 4 - b ^ 2 * (1 + 2 * (x - 1)) / (x - 1) ^ 2) *
    (x - 1) ^ 2)

/-- Rust `map_angle_from_impact_parameter` (src/math.rs), parameterized by the
numerical integrator `quad`: the external `quadrature` crate's `integrate`,
with `quad f lo hi` standing for `integrate(f, lo, hi, PHI_ERROR).integral`.
The source binds `let rtp = turning_point(b)` and uses it in both bounds of
the outgoing branch; it is inlined here. -/
noncomputable def map_angle_from_impact_parameter
    (quad : (ℝ → ℝ) → ℝ → ℝ → ℝ) (theta_rain b r : ℝ) : ℝ :=
  if photon_is_incoming theta_rain r then
    quad (fun x => integrand x b) 1 ((r - 1) / r)
  else
    quad (fun x => integrand x b) 1 ((turning_point b - 1) / turning_point b) -
      quad (fun x => integrand x b) ((turning_point b - 1) / turning_point b) ((r - 1) / r)

/-- Rust `hits_black_hole` (src/math.rs): `theta_rain < critical_rain_angle(r)`. -/
def hits_black_hole (theta_rain r : ℝ) : Prop :=
  theta_rain < critical_rain_angle r

/-- Rust `rain_angle_to_map_angle` (src/math.rs). The source's locals
(`b`, `theta_map`, `theta_map_normalized`, `phi_map`) are inlined; over the
reals the flip test `theta_map.sin().signum() == -1` is `sin theta_map < 0`
(`signum` is `-1` exactly on the negatives). -/
noncomputable def rain_angle_to_map_angle (quad : (ℝ → ℝ) → ℝ → ℝ → ℝ)
    (theta_rain phi_rain r : ℝ) : Option (ℝ × ℝ) :=
  if hits_black_hole theta_rain r then none
  else
    some (Real.arccos (Real.cos (Real.pi -
        map_angle_from_impact_parameter quad theta_rain (impact_parameter theta_rain r) r)),
      if Real.sin (Real.pi -
          map_angle_from_impact_parameter quad theta_rain (impact_parameter theta_rain r) r)
          < 0 then
        phi_rain + Real.pi
      else phi_rain)

/-! ## src/spherical_angle.rs — `RainAngle` and `MapAngle` -/

/-- Rust `RainAngle` (src/spherical_angle.rs). -/
structure RainAngle where
  theta : ℝ
  phi : ℝ

/-- Rust `RainAngle::new` (src/spherical_angle.rs): stores its arguments unchanged. -/
def RainAngle.new (theta phi : ℝ) : RainAngle := ⟨theta, phi⟩

/-- Rust `MapAngle` (src/spherical_angle.rs). -/
structure MapAngle where
  theta : ℝ
  phi : ℝ

/-- Rust `MapAngle::new` (src/spherical_angle.rs): stores its arguments unchanged. -/
def MapAngle.new (theta phi : ℝ) : MapAngle := ⟨theta, phi⟩

/-- Rust `RainAngle::try_to_map_angle_no_gr` (src/spherical_angle.rs). -/
noncomputable def RainAngle.try_to_map_angle_no_gr (a : RainAngle) (r : ℝ) :
    Option MapAngle :=
  if hits_black_hole a.theta r then none
  else some (MapAngle.new a.theta a.phi)

/-- Rust `RainAngle::try_to_map_angle` (src/spherical_angle.rs). -/
noncomputable def RainAngle.try_to_map_angle (quad : (ℝ → ℝ) → ℝ → ℝ → ℝ)
    (a : RainAngle) (r : ℝ) : Option MapAngle :=
  match rain_angle_to_map_angle quad a.theta a.phi r with
  | none => none
  | some angle => some (MapAngle.new angle.1 angle.2)

/-! ## Claim C4 -/

/-- A 3-vector of `f64` components (`cgmath::Vector3<f64>` / `nalgebra`). -/
structure Vec3 where
  x : ℝ
  y : ℝ
  z : ℝ

/-- Rust's `f64::atan2(y, x)` (quadrant-correct arctangent), written out over
the reals by cases on the signs of `x` and `y`; its range is `[-π, π]`. -/
noncomputable def atan2 (y x : ℝ) : ℝ :=
  if 0 < x then Real.arctan (y / x)
  else if x < 0 then
    (if 0 ≤ y then Real.arctan (y / x) + Real.pi else Real.arctan (y / x) - Real.pi)
  else
    (if 0 < y then Real.pi / 2 else if y < 0 then -(Real.pi / 2) else 0)

/-- Rust `SphericalAngle::from_vector` (src/spherical_angle.rs) instantiated at
`RainAngle` (the trait's default method calls `Self::new`):
`θ = (z/|v|).acos()`, `φ = atan2(y, x)` plus `2π` when negative. -/
noncomputable def RainAngle.from_vector (v : Vec3) : RainAngle :=
  RainAngle.new
    (Real.arccos (v.z / Real.sqrt (v.x ^ 2 + v.y ^ 2 + v.z ^ 2)))
    (if atan2 v.y v.x < 0 then atan2 v.y v.x + 2 * Real.pi else atan2 v.y v.x)

/-! ## src/scene.rs — `Scene` and its interpolation

The snapshot mixes revisions: src/scene.rs holds the consolidated `Scene`
(fields `camera`, `env`, `diver`, `gr`) but the `Diver` struct and the
consolidated `Camera` struct it references are absent from the sources.
Those two are modelled from the spec; the rotation type and nalgebra's
`slerp`, external libraries, are abstract parameters, as is the shared
environment handle. -/

/-- Modelled from the spec: `Diver = {r_init, t}` with element-wise linear
interpolation (the `Diver` struct referenced by src/scene.rs is absent from
the sources). The interpolation is the `Interpolate` lerp of src/traits.rs:
`(1 - factor) * self + factor * other`. -/
structure Diver where
  r_init : ℝ
  t : ℝ

noncomputable def Diver.interpolate (a b : Diver) (factor : ℝ) : Diver :=
  ⟨(1 - factor) * a.r_init + factor * b.r_init, (1 - factor) * a.t + factor * b.t⟩

/-- Default diver; the concrete values are immaterial to every claim. -/
def Diver.default : Diver := ⟨10, 0⟩

/-- Modelled from the spec: the consolidated `Camera = {fov, R}` referenced by
src/scene.rs is absent from the sources; the spec and the surviving
`PerspectiveCamera` (src/camera.rs) give the same fields and interpolation:
lerp on `fov` (src/traits.rs) and `slerp` on the rotation. -/
structure Camera (Rot : Type) where
  fov : ℝ
  inverse_view_matrix : Rot

noncomputable def Camera.interpolate {Rot : Type} (slerp : Rot → Rot → ℝ → Rot)
    (a b : Camera Rot) (factor : ℝ) : Camera Rot :=
  ⟨(1 - factor) * a.fov + factor * b.fov,
    slerp a.inverse_view_matrix b.inverse_view_matrix factor⟩

/-- Rust `PerspectiveCamera::default` (src/camera.rs): `fov = 60°.to_radians()`;
the rotation produced by `look_at` is the abstract `rot0`. -/
noncomputable def Camera.default {Rot : Type} (rot0 : Rot) : Camera Rot :=
  ⟨60 * (Real.pi / 180), rot0⟩

/-- Rust `Scene` (src/scene.rs): `{camera, env, diver, gr}`. -/
structure Scene (Rot Env : Type) where
  camera : Camera Rot
  env : Env
  diver : Diver
  gr : Bool

/-- Rust `Scene::interpolate` (src/scene.rs): interpolate the camera and the diver,
keep `env` (shared by clone) and `gr` from the left endpoint. -/
noncomputable def Scene.interpolate {Rot Env : Type} (slerp : Rot → Rot → ℝ → Rot)
    (a b : Scene Rot Env) (factor : ℝ) : Scene Rot Env :=
  ⟨a.camera.interpolate slerp b.camera factor, a.env,
    a.diver.interpolate b.diver factor, a.gr⟩

/-- Rust `Scene::default` (src/scene.rs): all fields default, `gr = true`. -/
noncomputable def Scene.default {Rot Env : Type} (rot0 : Rot) (env0 : Env) :
    Scene Rot Env :=
  ⟨Camera.default rot0, env0, Diver.default, true⟩

/-! ## src/timeline.rs — keyframes and the timeline -/

/-- The `BTreeMap<i32, Scene>` of keyframes (src/timeline.rs), modelled as a
finite set of keys together with a total value function; the map is read only
through `lookup`. -/
structure KeyMap (Rot Env : Type) where
  keys : Finset ℤ
  val : ℤ → Scene Rot Env

/-- Rust `BTreeMap::get`. -/
def KeyMap.lookup {Rot Env : Type} (m : KeyMap Rot Env) (f : ℤ) :
    Option (Scene Rot Env) :=
  if f ∈ m.keys then some (m.val f) else none

/-- Rust `BTreeMap::insert`. -/
def KeyMap.insert {Rot Env : Type} (m : KeyMap Rot Env) (f : ℤ)
    (s : Scene Rot Env) : KeyMap Rot Env :=
  ⟨Insert.insert f m.keys, Function.update m.val f s⟩

/-- Rust `BTreeMap::remove`. -/
def KeyMap.remove {Rot Env : Type} (m : KeyMap Rot Env) (f : ℤ) : KeyMap Rot Env :=
  ⟨m.keys.erase f, m.val⟩

/-- Rust `BTreeMap::len`. -/
def KeyMap.len {Rot Env : Type} (m : KeyMap Rot Env) : ℕ := m.keys.card

/-- Rust `BTreeMap::range(..f).last()`: the greatest key strictly below `f`
(used by `Timeline::previous_keyframe`). -/
def KeyMap.prevKey {Rot Env : Type} (m : KeyMap Rot Env) (f : ℤ) : Option ℤ :=
  if h : (m.keys.filter (fun k => k < f)).Nonempty then
    some ((m.keys.filter (fun k => k < f)).max' h)
  else none

/-- Rust `BTreeMap::range(f+1..).next()`: the least key strictly above `f`
(used by `Timeline::next_keyframe`). -/
def KeyMap.nextKey {Rot Env : Type} (m : KeyMap Rot Env) (f : ℤ) : Option ℤ :=
  if h : (m.keys.filter (fun k => f < k)).Nonempty then
    some ((m.keys.filter (fun k => f < k)).min' h)
  else none

/-- Rust `Timeline` (src/timeline.rs). -/
structure Timeline (Rot Env : Type) where
  start_frame : ℤ
  end_frame : ℤ
  fps : ℝ
  current_frame : ℤ
  preview_start : Option (ℤ × ℝ)
  keyframes : KeyMap Rot Env

/-- Rust `Timeline::default` (src/timeline.rs): frames 1..120, fps 30, one
keyframe at frame 1 holding the default scene. -/
noncomputable def Timeline.default {Rot Env : Type} (rot0 : Rot) (env0 : Env) :
    Timeline Rot Env :=
  ⟨1, 120, 30, 1, none, ⟨{1}, fun _ => Scene.default rot0 env0⟩⟩

/-- Rust `Timeline::previous_keyframe` (src/timeline.rs). -/
def Timeline.previous_keyframe {Rot Env : Type} (tl : Timeline Rot Env)
    (frame : ℤ) : Option (ℤ × Scene Rot Env) :=
  (tl.keyframes.prevKey frame).map (fun k => (k, tl.keyframes.val k))

/-- Rust `Timeline::next_keyframe` (src/timeline.rs). -/
def Timeline.next_keyframe {Rot Env : Type} (tl : Timeline Rot Env)
    (frame : ℤ) : Option (ℤ × Scene Rot Env) :=
  (tl.keyframes.nextKey frame).map (fun k => (k, tl.keyframes.val k))

/-- Rust `Timeline::get_scene` (src/timeline.rs). The interpolation factor is
`(frame - left.0) / (right.0 - left.0)` with the integer frames cast to
reals. The `(None, None)` arm is `unreachable!()` in the source (the
keyframe map is never empty); any value serves there and we use the raw
value function. -/
noncomputable def Timeline.get_scene {Rot Env : Type} (slerp : Rot → Rot → ℝ → Rot)
    (tl : Timeline Rot Env) (frame : ℤ) : Scene Rot Env :=
  match tl.keyframes.lookup frame with
  | some scene => scene
  | none =>
    match tl.previous_keyframe frame, tl.next_keyframe frame with
    | some left, some right =>
        left.2.interpolate slerp right.2
          (((frame - left.1 : ℤ) : ℝ) / ((right.1 - left.1 : ℤ) : ℝ))
    | none, some right => right.2
    | some left, none => left.2
    | none, none => tl.keyframes.val frame

/-- Rust `Timeline::get_current_scene` (src/timeline.rs). -/
noncomputable def Timeline.get_current_scene {Rot Env : Type}
    (slerp : Rot → Rot → ℝ → Rot) (tl : Timeline Rot Env) : Scene Rot Env :=
  tl.get_scene slerp tl.current_frame

/-- Rust `Timeline::set_scene` (src/timeline.rs). -/
def Timeline.set_scene {Rot Env : Type} (tl : Timeline Rot Env) (frame : ℤ)
    (scene : Scene Rot Env) : Timeline Rot Env :=
  { tl with keyframes := tl.keyframes.insert frame scene }

/-- Rust `Timeline::set_scene_if_different` (src/timeline.rs). -/
noncomputable def Timeline.set_scene_if_different {Rot Env : Type}
    (slerp : Rot → Rot → ℝ → Rot) (tl : Timeline Rot Env) (frame : ℤ)
    (scene : Scene Rot Env) : Timeline Rot Env :=
  if scene ≠ tl.get_scene slerp frame then tl.set_scene frame scene else tl

/-- Rust `Timeline::clear_keyframes` (src/timeline.rs): capture the current scene,
replace the map by a fresh one holding only `start_frame ↦ that scene`, and
reset the current frame. -/
noncomputable def Timeline.clear_keyframes {Rot Env : Type}
    (slerp : Rot → Rot → ℝ → Rot) (tl : Timeline Rot Env) : Timeline Rot Env :=
  { tl with
    keyframes := ⟨{tl.start_frame}, fun _ => tl.get_current_scene slerp⟩,
    current_frame := tl.start_frame }

/-- Rust `Timeline::delete_keyframe` (src/timeline.rs): if this is the last
keyframe let `clear_keyframes` handle it, else remove. -/
noncomputable def Timeline.delete_keyframe {Rot Env : Type}
    (slerp : Rot → Rot → ℝ → Rot) (tl : Timeline Rot Env) (frame : ℤ) :
    Timeline Rot Env :=
  if tl.keyframes.len = 1 then tl.clear_keyframes slerp
  else { tl with keyframes := tl.keyframes.remove frame }

/-- Rust `Timeline::move_keyframe` (src/timeline.rs): `remove_entry` then insert
the removed scene at the target; a no-op when nothing is stored at `fr`. -/
def Timeline.move_keyframe {Rot Env : Type} (tl : Timeline Rot Env)
    (fr tf : ℤ) : Timeline Rot Env :=
  match tl.keyframes.lookup fr with
  | some scene => { tl with keyframes := (tl.keyframes.remove fr).insert tf scene }
  | none => tl

/-! ## src/animation.rs and src/render.rs — animation export -/

/-- Rust `Frame(i32, Scene)` (src/animation.rs). -/
structure Frame (Rot Env : Type) where
  index : ℤ
  scene : Scene Rot Env

/-- Rust `Animation` (src/animation.rs): a finite ordered list of frames. -/
structure Animation (Rot Env : Type) where
  frames : List (Frame Rot Env)

/-- The inclusive integer range `a..=b` (empty when `b < a`). -/
def intRange (a b : ℤ) : List ℤ :=
  (List.range (b - a + 1).toNat).map (fun k : ℕ => a + (k : ℤ))

/-- Rust `Timeline::to_animation` (src/timeline.rs): one frame per index in
`start_frame..=end_frame`, each holding `get_scene` at that index. -/
noncomputable def Timeline.to_animation {Rot Env : Type}
    (slerp : Rot → Rot → ℝ → Rot) (tl : Timeline Rot Env) : Animation Rot Env :=
  ⟨(intRange tl.start_frame tl.end_frame).map (fun i => ⟨i, tl.get_scene slerp i⟩)⟩

/-- Rust `format!("{:0>5}", _)` (src/render.rs): left-pad the decimal string with
`'0'` to a minimum width of 5. -/
def zero_pad_5 (s : String) : String :=
  if s.length < 5 then String.mk (List.replicate (5 - s.length) '0') ++ s else s

/-- The per-frame file name built by `Renderer::render_animation`
(src/render.rs) for enumeration index `i` (0-based):
`stem ++ "." ++ {:0>5} of (i+1) ++ "." ++ ext`. -/
def frame_file_name (stem ext : String) (i : ℕ) : String :=
  stem ++ "." ++ zero_pad_5 (Nat.repr (i + 1)) ++ "." ++ ext

/-- The write loop of `Renderer::render_animation` (src/render.rs) from
enumeration index `i` on: each iteration writes the render of the next frame
under its `frame_file_name`. The `Frame` stands for the image rendered from
it; cancellation and save errors are absent. -/
def render_writes_from {Rot Env : Type} (stem ext : String) :
    ℕ → List (Frame Rot Env) → List (String × Frame Rot Env)
  | _, [] => []
  | i, fr :: rest => (frame_file_name stem ext i, fr) :: render_writes_from stem ext (i + 1) rest

/-- The full sequence of file writes of `Renderer::render_animation`
(src/render.rs), absent cancellation and save errors: `enumerate()` starts
at 0. -/
def render_animation_writes {Rot Env : Type} (stem ext : String)
    (a : Animation Rot Env) : List (String × Frame Rot Env) :=
  render_writes_from stem ext 0 a.frames

/-! ## src/preview_manager.rs — the preview render coalescer -/

/-- Rust `PreviewManager` (src/preview_manager.rs). `previous_render` holds the
last completed `(image, duration)`; `in_flight` is a ghost field (not in the
Rust struct): the number of spawned render threads that have not yet stored
their result and cleared `working`. -/
structure PreviewManager (Rot Env Img : Type) where
  working : Bool
  previous_render : Option (Img × ℝ)
  previous_scene_resolution : Option (Scene Rot Env × (ℕ × ℕ))
  in_flight : ℕ

/-- Rust `PreviewManager::default` (src/preview_manager.rs). -/
def PreviewManager.default {Rot Env Img : Type} : PreviewManager Rot Env Img :=
  ⟨false, none, none, 0⟩

/-- Rust `PreviewManager::new_render` (src/preview_manager.rs): return unchanged
when the request equals the previous one, or when `working` is already set;
otherwise set `working`, record the request and spawn one render
(`in_flight + 1`). -/
noncomputable def PreviewManager.new_render {Rot Env Img : Type}
    (pm : PreviewManager Rot Env Img) (scene : Scene Rot Env)
    (resolution : ℕ × ℕ) : PreviewManager Rot Env Img :=
  if pm.previous_scene_resolution = some (scene, resolution) then pm
  else if pm.working then pm
  else ⟨true, pm.previous_render, some (scene, resolution), pm.in_flight + 1⟩

/-- Completion of the spawned render thread (src/preview_manager.rs): store
the result into `previous_render`, then set `working` back to `false`. -/
def PreviewManager.finish_render {Rot Env Img : Type}
    (pm : PreviewManager Rot Env Img) (render : Img) (duration : ℝ) :
    PreviewManager Rot Env Img :=
  ⟨false, some (render, duration), pm.previous_scene_resolution, pm.in_flight - 1⟩

/-- The states a `PreviewManager` can reach from `default` under any
interleaving of `new_render` calls and render-thread completions (a thread
can only complete while one is in flight). -/
inductive PreviewReachable {Rot Env Img : Type} : PreviewManager Rot Env Img → Prop
  | init : PreviewReachable PreviewManager.default
  | new_render (pm : PreviewManager Rot Env Img) (scene : Scene Rot Env)
      (resolution : ℕ × ℕ) : PreviewReachable pm →
      PreviewReachable (pm.new_render scene resolution)
  | finish_render (pm : PreviewManager Rot Env Img) (render : Img)
      (duration : ℝ) : PreviewReachable pm → 1 ≤ pm.in_flight →
      PreviewReachable (pm.finish_render render duration)

/-! ## Concrete witness fixtures (trivial rotation and environment) -/

/-- Trivial stand-in for nalgebra's `slerp` on the trivial rotation type. -/
def slerpW : Unit → Unit → ℝ → Unit := fun _ _ _ => ()

/-- A concrete scene with `fov = 1`. -/
noncomputable def sceneL : Scene Unit Unit := ⟨⟨1, ()⟩, (), ⟨10, 0⟩, true⟩

/-- A concrete scene with `fov = 3`. -/
noncomputable def sceneR : Scene Unit Unit := ⟨⟨3, ()⟩, (), ⟨10, 0⟩, true⟩

/-- A concrete scene differing from the default scene (`gr = false`). -/
noncomputable def sceneF : Scene Unit Unit := ⟨⟨1, ()⟩, (), ⟨10, 0⟩, false⟩

/-- A timeline over frames 0..10 with keyframes at 0 and 10. -/
noncomputable def tlW : Timeline Unit Unit :=
  ⟨0, 10, 30, 0, none, ⟨{0, 10}, fun k => if k = 10 then sceneR else sceneL⟩⟩

/-- A timeline whose sole keyframe (frame 1) holds the non-default `sceneF`. -/
noncomputable def tlSole : Timeline Unit Unit :=
  ⟨1, 120, 30, 1, none, ⟨{1}, fun _ => sceneF⟩⟩

/-! ## Claim C1 -/

/-- C1: for every non-captured outgoing photon (`cos θ_rain ≥ √(r/2)` or
`cos θ_rain ≥ √(2/r)`), the geodesic solver computes the deflection as the
integral of the integrand from `1` to `(r_tp−1)/r_tp` MINUS the integral from
`(r_tp−1)/r_tp` to `(r−1)/r`, where `r_tp = 6/(1 − 2·sin(asin(1 − 54/b²)/3))`
is the turning point: the post-turning-point term is subtracted, not added. -/
theorem C1_outgoing_deflection_subtracted (quad : (ℝ → ℝ) → ℝ → ℝ → ℝ)
    (theta_rain r : ℝ)
    (h : Real.sqrt (r / 2) ≤ Real.cos theta_rain ∨
      Real.sqrt (2 / r) ≤ Real.cos theta_rain) :
    map_angle_from_impact_parameter quad theta_rain (impact_parameter theta_rain r) r =
        quad (fun x => integrand x (impact_parameter theta_rain r)) 1
          ((turning_point (impact_parameter theta_rain r) - 1) /
            turning_point (impact_parameter theta_rain r)) -
        quad (fun x => integrand x (impact_parameter theta_rain r))
          ((turning_point (impact_parameter theta_rain r) - 1) /
            turning_point (impact_parameter theta_rain r)) ((r - 1) / r) ∧
      turning_point (impact_parameter theta_rain r) =
        6 / (1 - 2 * Real.sin (Real.arcsin
          (1 - 54 / impact_parameter theta_rain r ^ 2) / 3)) := by
  constructor
  · rw [map_angle_from_impact_parameter, if_neg]
    rintro ⟨h1, h2⟩
    rcases h with h | h
    · exact absurd h1 (not_lt.mpr h)
    · exact absurd h2 (not_lt.mpr h)
  · rfl

/-- Witness for C1 at `θ_rain = 0`, `r = 2`, with the zero integrator. -/
theorem C1_outgoing_deflection_subtracted_witness :
    Real.sqrt (2 / 2) ≤ Real.cos 0 ∧
      map_angle_from_impact_parameter (fun _ _ _ => 0) 0 (impact_parameter 0 2) 2 =
        0 - 0 := by
  have hs : Real.sqrt (2 / 2) ≤ Real.cos 0 := by
    rw [Real.cos_zero, show (2:ℝ) / 2 = 1 by norm_num, Real.sqrt_one]
  exact ⟨hs, (C1_outgoing_deflection_subtracted (fun _ _ _ => 0) 0 2 (Or.inr hs)).1⟩

/-! ## Claim C2 -/

/-- C2: for `θ_rain < θ_c(r)` both the GR conversion `rain_angle_to_map_angle`
and the non-GR conversion `try_to_map_angle_no_gr` return `none`; for
`θ_rain ≥ θ_c(r)` the non-GR conversion returns exactly the input pair,
unchanged. -/
theorem C2_shadow_none_and_no_gr_identity (quad : (ℝ → ℝ) → ℝ → ℝ → ℝ)
    (a : RainAngle) (r : ℝ) :
    (a.theta < critical_rain_angle r →
        rain_angle_to_map_angle quad a.theta a.phi r = none ∧
          a.try_to_map_angle_no_gr r = none) ∧
      (critical_rain_angle r ≤ a.theta →
        a.try_to_map_angle_no_gr r = some (MapAngle.new a.theta a.phi)) := by
  refine ⟨fun h => ⟨?_, ?_⟩, fun h => ?_⟩
  · rw [rain_angle_to_map_angle, if_pos (show hits_black_hole a.theta r from h)]
  · rw [RainAngle.try_to_map_angle_no_gr, if_pos (show hits_black_hole a.theta r from h)]
  · rw [RainAngle.try_to_map_angle_no_gr,
      if_neg (show ¬hits_black_hole a.theta r from not_lt.mpr h)]

/-- Witness for C2: at `r = 2` the rain angle `0` is inside the shadow cone
(`θ_c(2) = acos(46/62) > 0`) and the rain angle `π` is outside it
(`θ_c(2) ≤ π`). -/
theorem C2_shadow_none_and_no_gr_identity_witness :
    (0 < critical_rain_angle 2 ∧
        rain_angle_to_map_angle (fun _ _ _ => 0) 0 0 2 = none ∧
          (RainAngle.new 0 0).try_to_map_angle_no_gr 2 = none) ∧
      (critical_rain_angle 2 ≤ Real.pi ∧
        (RainAngle.new Real.pi 0).try_to_map_angle_no_gr 2 =
          some (MapAngle.new Real.pi 0)) := by
  have h1 : 0 < critical_rain_angle 2 := by
    rw [critical_rain_angle, Real.arccos_pos]
    have e1 : Real.sqrt (2 * 2) = 2 := by
      rw [show (2:ℝ) * 2 = 2 ^ 2 by norm_num, Real.sqrt_sq (by norm_num : (0:ℝ) ≤ 2)]
    have e2 : Real.sqrt (2 * (6 + 2)) = 4 := by
      rw [show (2:ℝ) * (6 + 2) = 4 ^ 2 by norm_num, Real.sqrt_sq (by norm_num : (0:ℝ) ≤ 4)]
    rw [e1, e2]
    norm_num
  have h2 : critical_rain_angle 2 ≤ Real.pi := Real.arccos_le_pi _
  exact ⟨⟨h1, (C2_shadow_none_and_no_gr_identity (fun _ _ _ => 0) (RainAngle.new 0 0) 2).1 h1⟩,
    ⟨h2, (C2_shadow_none_and_no_gr_identity (fun _ _ _ => 0) (RainAngle.new Real.pi 0) 2).2 h2⟩⟩

/-! ## Claim C3 -/

/-- C3 (amended): whenever the geodesic solver returns `some (θ_map, φ_map)`,
with `θ_raw = π − Δφ`: `θ_map = acos(cos θ_raw)` lies in `[0, π]`; `φ_map`
equals `φ_rain` when `sin θ_raw ≥ 0` and `φ_rain + π` when `sin θ_raw < 0`;
consequently `φ_map` lies in `[0, 3π)` whenever `φ_rain` lies in `[0, 2π)` —
the code does not reduce the flipped azimuth modulo `2π`, so membership in
`[0, 2π)` is not guaranteed. -/
theorem C3_map_angle_normalization (quad : (ℝ → ℝ) → ℝ → ℝ → ℝ)
    (theta_rain phi_rain r : ℝ) (h : critical_rain_angle r ≤ theta_rain) :
    ∃ tm pm, rain_angle_to_map_angle quad theta_rain phi_rain r = some (tm, pm) ∧
      tm = Real.arccos (Real.cos (Real.pi -
        map_angle_from_impact_parameter quad theta_rain (impact_parameter theta_rain r) r)) ∧
      0 ≤ tm ∧ tm ≤ Real.pi ∧
      (0 ≤ Real.sin (Real.pi -
          map_angle_from_impact_parameter quad theta_rain (impact_parameter theta_rain r) r) →
        pm = phi_rain) ∧
      (Real.sin (Real.pi -
          map_angle_from_impact_parameter quad theta_rain (impact_parameter theta_rain r) r)
          < 0 → pm = phi_rain + Real.pi) ∧
      (0 ≤ phi_rain → phi_rain < 2 * Real.pi → 0 ≤ pm ∧ pm < 3 * Real.pi) := by
  rw [rain_angle_to_map_angle,
    if_neg (show ¬hits_black_hole theta_rain r from not_lt.mpr h)]
  refine ⟨_, _, rfl, rfl, Real.arccos_nonneg _, Real.arccos_le_pi _, ?_, ?_, ?_⟩
  · intro hs
    rw [if_neg (not_lt.mpr hs)]
  · intro hs
    rw [if_pos hs]
  · intro h0 h2
    have hpi := Real.pi_pos
    split
    · constructor
      · linarith
      · linarith
    · constructor
      · exact h0
      · linarith

/-- Witness for C3 at `θ_rain = π`, `φ_rain = 0`, `r = 2` with the zero
integrator. -/
theorem C3_map_angle_normalization_witness :
    critical_rain_angle 2 ≤ Real.pi ∧
      (∃ tm pm, rain_angle_to_map_angle (fun _ _ _ => 0) Real.pi 0 2 = some (tm, pm) ∧
        tm = Real.arccos (Real.cos (Real.pi -
          map_angle_from_impact_parameter (fun _ _ _ => 0) Real.pi
            (impact_parameter Real.pi 2) 2)) ∧
        0 ≤ tm ∧ tm ≤ Real.pi ∧
        (0 ≤ Real.sin (Real.pi -
            map_angle_from_impact_parameter (fun _ _ _ => 0) Real.pi
              (impact_parameter Real.pi 2) 2) → pm = 0) ∧
        (Real.sin (Real.pi -
            map_angle_from_impact_parameter (fun _ _ _ => 0) Real.pi
              (impact_parameter Real.pi 2) 2) < 0 → pm = 0 + Real.pi) ∧
        ((0:ℝ) ≤ 0 → (0:ℝ) < 2 * Real.pi → 0 ≤ pm ∧ pm < 3 * Real.pi)) := by
  have h : critical_rain_angle 2 ≤ Real.pi := Real.arccos_le_pi _
  exact ⟨h, C3_map_angle_normalization (fun _ _ _ => 0) Real.pi 0 2 h⟩

/-- Counterexample for C3 as stated: with the constant integrator `3π/2`
(standing for a deflection the quadrature can genuinely produce near the
photon sphere), the input `θ_rain = π`, `φ_rain = 3π/2 ∈ [0, 2π)`, `r = 2`
yields `φ_map = 3π/2 + π = 5π/2 ∉ [0, 2π)`: the flipped azimuth is not
reduced modulo `2π`. -/
theorem C3_phi_range_counterexample :
    rain_angle_to_map_angle (fun _ _ _ => 3 * Real.pi / 2) Real.pi
        (3 * Real.pi / 2) 2 =
      some (Real.pi / 2, 3 * Real.pi / 2 + Real.pi) ∧
      0 ≤ 3 * Real.pi / 2 ∧ 3 * Real.pi / 2 < 2 * Real.pi ∧
      ¬(3 * Real.pi / 2 + Real.pi < 2 * Real.pi) := by
  have hpi := Real.pi_pos
  have hnothit : ¬hits_black_hole Real.pi 2 :=
    not_lt.mpr (Real.arccos_le_pi _)
  have hin : photon_is_incoming Real.pi 2 := by
    constructor
    · rw [Real.cos_pi, show (2:ℝ) / 2 = 1 by norm_num, Real.sqrt_one]
      norm_num
    · rw [Real.cos_pi, show (2:ℝ) / 2 = 1 by norm_num, Real.sqrt_one]
      norm_num
  have hdelta : map_angle_from_impact_parameter (fun _ _ _ => 3 * Real.pi / 2)
      Real.pi (impact_parameter Real.pi 2) 2 = 3 * Real.pi / 2 := by
    rw [map_angle_from_impact_parameter, if_pos hin]
  have hraw : Real.pi - 3 * Real.pi / 2 = -(Real.pi / 2) := by ring
  refine ⟨?_, by positivity, by linarith, by linarith⟩
  rw [rain_angle_to_map_angle, if_neg hnothit, hdelta, hraw]
  have hcos : Real.arccos (Real.cos (-(Real.pi / 2))) = Real.pi / 2 := by
    rw [Real.cos_neg, Real.cos_pi_div_two, Real.arccos_zero]
  have hsin : Real.sin (-(Real.pi / 2)) < 0 := by
    rw [Real.sin_neg, Real.sin_pi_div_two]
    norm_num
  rw [hcos, if_pos hsin]

theorem atan2_bounds (y x : ℝ) : -Real.pi ≤ atan2 y x ∧ atan2 y x ≤ Real.pi := by
  have h1 := Real.arctan_lt_pi_div_two (y / x)
  have h2 := Real.neg_pi_div_two_lt_arctan (y / x)
  have hpi := Real.pi_pos
  rw [atan2]
  split_ifs with hx hx2 hy hy2 hy3
  · exact ⟨by linarith, by linarith⟩
  · have hle : Real.arctan (y / x) ≤ 0 := by
      have hq : y / x ≤ 0 := div_nonpos_iff.mpr (Or.inl ⟨hy, hx2.le⟩)
      calc Real.arctan (y / x) ≤ Real.arctan 0 := Real.arctan_strictMono.monotone hq
        _ = 0 := Real.arctan_zero
    exact ⟨by linarith, by linarith⟩
  · have hge : 0 ≤ Real.arctan (y / x) := by
      have hq : 0 ≤ y / x := (div_pos_of_neg_of_neg (lt_of_not_ge hy) hx2).le
      calc (0:ℝ) = Real.arctan 0 := Real.arctan_zero.symm
        _ ≤ Real.arctan (y / x) := Real.arctan_strictMono.monotone hq
    exact ⟨by linarith, by linarith⟩
  · exact ⟨by linarith, by linarith⟩
  · exact ⟨by linarith, by linarith⟩
  · exact ⟨by linarith, by linarith⟩

/-- C4 (amended): construction via `from_vector` always yields
`θ ∈ [0, π]` and `φ ∈ [0, 2π)`; direct construction via `new`, however,
stores both inputs unchanged — it performs no clamping of `θ` and no
reduction of `φ` modulo `2π`. -/
theorem C4_from_vector_normalizes_new_does_not :
    (∀ v : Vec3, 0 ≤ (RainAngle.from_vector v).theta ∧
        (RainAngle.from_vector v).theta ≤ Real.pi ∧
        0 ≤ (RainAngle.from_vector v).phi ∧
        (RainAngle.from_vector v).phi < 2 * Real.pi) ∧
      ∀ theta phi : ℝ, (RainAngle.new theta phi).theta = theta ∧
        (RainAngle.new theta phi).phi = phi := by
  constructor
  · intro v
    have hphi : (RainAngle.from_vector v).phi =
        if atan2 v.y v.x < 0 then atan2 v.y v.x + 2 * Real.pi else atan2 v.y v.x := rfl
    obtain ⟨hl, hr⟩ := atan2_bounds v.y v.x
    have hpi := Real.pi_pos
    refine ⟨Real.arccos_nonneg _, Real.arccos_le_pi _, ?_, ?_⟩
    · rw [hphi]
      split_ifs with hneg
      · linarith
      · linarith
    · rw [hphi]
      split_ifs with hneg
      · linarith
      · linarith
  · intro theta phi
    exact ⟨rfl, rfl⟩

/-- Counterexample for C4 as stated: `RainAngle::new(10, -1)` stores
`θ = 10 > π` (not clamped to `[0, π]`) and `φ = -1 < 0` (not reduced modulo
`2π` to a positive representative). -/
theorem C4_new_counterexample :
    (RainAngle.new 10 (-1)).theta = 10 ∧ Real.pi < 10 ∧
      (RainAngle.new 10 (-1)).phi = -1 ∧ ((-1:ℝ) < 0) := by
  refine ⟨rfl, ?_, rfl, by norm_num⟩
  have h := Real.pi_le_four
  linarith

/-! ## Keyframe lookup characterizations -/

theorem KeyMap.prevKey_eq_some {Rot Env : Type} {m : KeyMap Rot Env} {f L : ℤ}
    (hL : L ∈ m.keys) (hLf : L < f) (hmax : ∀ k ∈ m.keys, k < f → k ≤ L) :
    m.prevKey f = some L := by
  have hmem : L ∈ m.keys.filter (fun k => k < f) :=
    Finset.mem_filter.mpr ⟨hL, hLf⟩
  have hne : (m.keys.filter (fun k => k < f)).Nonempty := ⟨L, hmem⟩
  rw [KeyMap.prevKey, dif_pos hne]
  congr 1
  apply le_antisymm
  · apply Finset.max'_le
    intro y hy
    obtain ⟨hy1, hy2⟩ := Finset.mem_filter.mp hy
    exact hmax y hy1 hy2
  · exact Finset.le_max' _ L hmem

theorem KeyMap.prevKey_eq_none {Rot Env : Type} {m : KeyMap Rot Env} {f : ℤ}
    (h : ∀ k ∈ m.keys, ¬k < f) : m.prevKey f = none := by
  rw [KeyMap.prevKey, dif_neg]
  rintro ⟨k, hk⟩
  obtain ⟨h1, h2⟩ := Finset.mem_filter.mp hk
  exact h k h1 h2

theorem KeyMap.nextKey_eq_some {Rot Env : Type} {m : KeyMap Rot Env} {f R : ℤ}
    (hR : R ∈ m.keys) (hfR : f < R) (hmin : ∀ k ∈ m.keys, f < k → R ≤ k) :
    m.nextKey f = some R := by
  have hmem : R ∈ m.keys.filter (fun k => f < k) :=
    Finset.mem_filter.mpr ⟨hR, hfR⟩
  have hne : (m.keys.filter (fun k => f < k)).Nonempty := ⟨R, hmem⟩
  rw [KeyMap.nextKey, dif_pos hne]
  congr 1
  apply le_antisymm
  · exact Finset.min'_le _ R hmem
  · apply Finset.le_min'
    intro y hy
    obtain ⟨hy1, hy2⟩ := Finset.mem_filter.mp hy
    exact hmin y hy1 hy2

theorem KeyMap.nextKey_eq_none {Rot Env : Type} {m : KeyMap Rot Env} {f : ℤ}
    (h : ∀ k ∈ m.keys, ¬f < k) : m.nextKey f = none := by
  rw [KeyMap.nextKey, dif_neg]
  rintro ⟨k, hk⟩
  obtain ⟨h1, h2⟩ := Finset.mem_filter.mp hk
  exact h k h1 h2

theorem KeyMap.lookup_eq_none {Rot Env : Type} {m : KeyMap Rot Env} {f : ℤ}
    (h : f ∉ m.keys) : m.lookup f = none := by
  rw [KeyMap.lookup, if_neg h]

theorem KeyMap.lookup_eq_some {Rot Env : Type} {m : KeyMap Rot Env} {f : ℤ}
    (h : f ∈ m.keys) : m.lookup f = some (m.val f) := by
  rw [KeyMap.lookup, if_pos h]

/-! ## Claim C6 -/

/-- C6: `get_scene(f)` returns the stored scene exactly at a keyframe;
strictly between adjacent keyframes `L < f < R` it returns
`interpolate(keyframes[L], keyframes[R], (f−L)/(R−L))`, whence a scalar field
such as `fov` varies as the linear interpolant; before the first keyframe and
after the last it returns the scene of the nearest endpoint keyframe. -/
theorem C6_get_scene_piecewise {Rot Env : Type} (slerp : Rot → Rot → ℝ → Rot)
    (tl : Timeline Rot Env) (f : ℤ) :
    (f ∈ tl.keyframes.keys → tl.get_scene slerp f = tl.keyframes.val f) ∧
      (∀ L R : ℤ, L ∈ tl.keyframes.keys → R ∈ tl.keyframes.keys → L < f → f < R →
        (∀ k ∈ tl.keyframes.keys, k ≤ L ∨ R ≤ k) →
        tl.get_scene slerp f =
            (tl.keyframes.val L).interpolate slerp (tl.keyframes.val R)
              (((f - L : ℤ) : ℝ) / ((R - L : ℤ) : ℝ)) ∧
          (tl.get_scene slerp f).camera.fov =
            (1 - ((f - L : ℤ) : ℝ) / ((R - L : ℤ) : ℝ)) *
                (tl.keyframes.val L).camera.fov +
              ((f - L : ℤ) : ℝ) / ((R - L : ℤ) : ℝ) *
                (tl.keyframes.val R).camera.fov) ∧
      (∀ R : ℤ, R ∈ tl.keyframes.keys → (∀ k ∈ tl.keyframes.keys, R ≤ k) → f < R →
        tl.get_scene slerp f = tl.keyframes.val R) ∧
      (∀ L : ℤ, L ∈ tl.keyframes.keys → (∀ k ∈ tl.keyframes.keys, k ≤ L) → L < f →
        tl.get_scene slerp f = tl.keyframes.val L) := by
  refine ⟨fun h => ?_, fun L R hL hR hLf hfR hgap => ?_, fun R hR hmin hfR => ?_,
    fun L hL hmax hLf => ?_⟩
  · rw [Timeline.get_scene, KeyMap.lookup_eq_some h]
  · have hf : f ∉ tl.keyframes.keys := by
      intro hmem
      rcases hgap f hmem with h1 | h1
      · exact absurd hLf (not_lt.mpr h1)
      · exact absurd hfR (not_lt.mpr h1)
    have hprev : tl.keyframes.prevKey f = some L := by
      apply KeyMap.prevKey_eq_some hL hLf
      intro k hk hkf
      rcases hgap k hk with h1 | h1
      · exact h1
      · exact absurd hfR (not_lt.mpr (le_of_lt (lt_of_le_of_lt h1 hkf)))
    have hnext : tl.keyframes.nextKey f = some R := by
      apply KeyMap.nextKey_eq_some hR hfR
      intro k hk hfk
      rcases hgap k hk with h1 | h1
      · exact absurd hLf (not_lt.mpr (le_of_lt (lt_of_lt_of_le hfk h1)))
      · exact h1
    have hget : tl.get_scene slerp f =
        (tl.keyframes.val L).interpolate slerp (tl.keyframes.val R)
          (((f - L : ℤ) : ℝ) / ((R - L : ℤ) : ℝ)) := by
      rw [Timeline.get_scene, KeyMap.lookup_eq_none hf,
        Timeline.previous_keyframe, Timeline.next_keyframe, hprev, hnext]
      rfl
    refine ⟨hget, ?_⟩
    rw [hget]
    rfl
  · have hf : f ∉ tl.keyframes.keys := by
      intro hmem
      exact absurd hfR (not_lt.mpr (hmin f hmem))
    have hprev : tl.keyframes.prevKey f = none := by
      apply KeyMap.prevKey_eq_none
      intro k hk
      exact not_lt.mpr (le_of_lt (lt_of_lt_of_le hfR (hmin k hk)))
    have hnext : tl.keyframes.nextKey f = some R := by
      apply KeyMap.nextKey_eq_some hR hfR
      intro k hk _
      exact hmin k hk
    rw [Timeline.get_scene, KeyMap.lookup_eq_none hf,
      Timeline.previous_keyframe, Timeline.next_keyframe, hprev, hnext]
    rfl
  · have hf : f ∉ tl.keyframes.keys := by
      intro hmem
      exact absurd hLf (not_lt.mpr (hmax f hmem))
    have hprev : tl.keyframes.prevKey f = some L := by
      apply KeyMap.prevKey_eq_some hL hLf
      intro k hk _
      exact hmax k hk
    have hnext : tl.keyframes.nextKey f = none := by
      apply KeyMap.nextKey_eq_none
      intro k hk
      exact not_lt.mpr (le_of_lt (lt_of_le_of_lt (hmax k hk) hLf))
    rw [Timeline.get_scene, KeyMap.lookup_eq_none hf,
      Timeline.previous_keyframe, Timeline.next_keyframe, hprev, hnext]
    rfl

/-- Witness for C6 on `tlW`: exact snapping at the keyframe 0, linear
interpolation at frame 5, endpoint snapping at frames −3 and 20. -/
theorem C6_get_scene_piecewise_witness :
    ((0:ℤ) ∈ tlW.keyframes.keys ∧ tlW.get_scene slerpW 0 = tlW.keyframes.val 0) ∧
      (tlW.get_scene slerpW 5 =
          (tlW.keyframes.val 0).interpolate slerpW (tlW.keyframes.val 10)
            (((5 - 0 : ℤ) : ℝ) / ((10 - 0 : ℤ) : ℝ)) ∧
        (tlW.get_scene slerpW 5).camera.fov =
          (1 - ((5 - 0 : ℤ) : ℝ) / ((10 - 0 : ℤ) : ℝ)) *
              (tlW.keyframes.val 0).camera.fov +
            ((5 - 0 : ℤ) : ℝ) / ((10 - 0 : ℤ) : ℝ) *
              (tlW.keyframes.val 10).camera.fov) ∧
      tlW.get_scene slerpW (-3) = tlW.keyframes.val 0 ∧
      tlW.get_scene slerpW 20 = tlW.keyframes.val 10 := by
  have h0 : (0:ℤ) ∈ tlW.keyframes.keys := by decide
  have ha := (C6_get_scene_piecewise slerpW tlW 0).1 h0
  have hb := (C6_get_scene_piecewise slerpW tlW 5).2.1 0 10 (by decide) (by decide)
    (by decide) (by decide) (by decide)
  have hc := (C6_get_scene_piecewise slerpW tlW (-3)).2.2.1 0 (by decide) (by decide)
    (by decide)
  have hd := (C6_get_scene_piecewise slerpW tlW 20).2.2.2 10 (by decide) (by decide)
    (by decide)
  exact ⟨⟨h0, ha⟩, hb, hc, hd⟩

/-! ## Claim C7 -/

/-- C7 (amended): every timeline operation preserves the at-least-one-keyframe
invariant; `delete_keyframe(f)` removes the entry at `f` when more than one
keyframe remains, and deleting the sole remaining keyframe re-seeds a single
keyframe at `start_frame` holding the timeline's current scene (not a default
scene). -/
theorem C7_nonempty_invariant {Rot Env : Type} (slerp : Rot → Rot → ℝ → Rot)
    (tl : Timeline Rot Env) (f g : ℤ) (s : Scene Rot Env)
    (hne : tl.keyframes.keys.Nonempty) :
    (tl.set_scene f s).keyframes.keys.Nonempty ∧
      (tl.set_scene_if_different slerp f s).keyframes.keys.Nonempty ∧
      (tl.delete_keyframe slerp f).keyframes.keys.Nonempty ∧
      (tl.move_keyframe f g).keyframes.keys.Nonempty ∧
      (tl.clear_keyframes slerp).keyframes.keys.Nonempty ∧
      (1 < tl.keyframes.len →
        (tl.delete_keyframe slerp f).keyframes = tl.keyframes.remove f) ∧
      (tl.keyframes.len = 1 →
        (tl.delete_keyframe slerp f).keyframes.keys = {tl.start_frame} ∧
        (tl.delete_keyframe slerp f).keyframes.lookup tl.start_frame =
          some (tl.get_current_scene slerp)) := by
  refine ⟨Finset.insert_nonempty _ _, ?_, ?_, ?_, Finset.singleton_nonempty _,
    fun hlen => ?_, fun hlen => ?_⟩
  · rw [Timeline.set_scene_if_different]
    split_ifs with hdiff
    · exact Finset.insert_nonempty _ _
    · exact hne
  · rw [Timeline.delete_keyframe]
    split_ifs with hlen
    · exact Finset.singleton_nonempty _
    · have h1 : 0 < tl.keyframes.keys.card := Finset.card_pos.mpr hne
      have h2 : tl.keyframes.keys.card ≠ 1 := hlen
      have hcard : 1 < tl.keyframes.keys.card := by omega
      obtain ⟨b, hb, hbf⟩ := Finset.exists_ne_of_one_lt_card hcard f
      exact ⟨b, Finset.mem_erase.mpr ⟨hbf, hb⟩⟩
  · cases hl : tl.keyframes.lookup f with
    | none =>
      rw [Timeline.move_keyframe, hl]
      exact hne
    | some sc =>
      rw [Timeline.move_keyframe, hl]
      exact Finset.insert_nonempty _ _
  · rw [Timeline.delete_keyframe,
      if_neg (show ¬tl.keyframes.len = 1 by omega)]
  · rw [Timeline.delete_keyframe, if_pos hlen]
    refine ⟨rfl, ?_⟩
    exact KeyMap.lookup_eq_some
      (show tl.start_frame ∈ (tl.clear_keyframes slerp).keyframes.keys from
        Finset.mem_singleton_self _)

/-- Witness for C7 on the two-keyframe timeline `tlW`. -/
theorem C7_nonempty_invariant_witness :
    tlW.keyframes.keys.Nonempty ∧
      ((tlW.set_scene 0 sceneR).keyframes.keys.Nonempty ∧
        (tlW.set_scene_if_different slerpW 0 sceneR).keyframes.keys.Nonempty ∧
        (tlW.delete_keyframe slerpW 0).keyframes.keys.Nonempty ∧
        (tlW.move_keyframe 0 5).keyframes.keys.Nonempty ∧
        (tlW.clear_keyframes slerpW).keyframes.keys.Nonempty ∧
        (1 < tlW.keyframes.len →
          (tlW.delete_keyframe slerpW 0).keyframes = tlW.keyframes.remove 0) ∧
        (tlW.keyframes.len = 1 →
          (tlW.delete_keyframe slerpW 0).keyframes.keys = {tlW.start_frame} ∧
          (tlW.delete_keyframe slerpW 0).keyframes.lookup tlW.start_frame =
            some (tlW.get_current_scene slerpW))) := by
  have hne : tlW.keyframes.keys.Nonempty := ⟨0, by decide⟩
  exact ⟨hne, C7_nonempty_invariant slerpW tlW 0 5 sceneR hne⟩

/-- Counterexample for C7 as stated: deleting the sole keyframe of `tlSole`
re-seeds the keyframe with the current scene `sceneF` (`gr = false`), not with
the default scene (`gr = true`). -/
theorem C7_default_reseed_counterexample :
    (tlSole.delete_keyframe slerpW 1).keyframes.lookup 1 = some sceneF ∧
      sceneF.gr = false ∧ (Scene.default () () : Scene Unit Unit).gr = true ∧
      (tlSole.delete_keyframe slerpW 1).keyframes.lookup 1 ≠
        some (Scene.default () ()) := by
  have hcur : tlSole.get_current_scene slerpW = sceneF := by
    rw [Timeline.get_current_scene, show tlSole.current_frame = (1:ℤ) from rfl,
      Timeline.get_scene,
      KeyMap.lookup_eq_some (show (1:ℤ) ∈ tlSole.keyframes.keys by decide)]
    rfl
  have hdel : (tlSole.delete_keyframe slerpW 1).keyframes.lookup 1 = some sceneF := by
    rw [Timeline.delete_keyframe, if_pos (show tlSole.keyframes.len = 1 by decide)]
    rw [KeyMap.lookup_eq_some
      (show (1:ℤ) ∈ (tlSole.clear_keyframes slerpW).keyframes.keys from
        Finset.mem_singleton_self _)]
    rw [show (tlSole.clear_keyframes slerpW).keyframes.val 1 =
      tlSole.get_current_scene slerpW from rfl, hcur]
  refine ⟨hdel, rfl, rfl, ?_⟩
  rw [hdel]
  intro hcontr
  have hg := congrArg Scene.gr (Option.some.inj hcontr)
  exact Bool.noConfusion hg

/-! ## Claim C10 -/

/-- C10: `move_keyframe(from, to)` with nothing stored at `from` leaves the
timeline unchanged; otherwise exactly that entry is removed, its scene
re-inserted at `to` (overwriting any entry there), every other entry is
untouched, and all other timeline fields are unchanged. -/
theorem C10_move_keyframe_effect {Rot Env : Type} (tl : Timeline Rot Env)
    (fr tf : ℤ) :
    (tl.keyframes.lookup fr = none → tl.move_keyframe fr tf = tl) ∧
      (∀ sc : Scene Rot Env, tl.keyframes.lookup fr = some sc →
        (∀ g : ℤ, (tl.move_keyframe fr tf).keyframes.lookup g =
            if g = tf then some sc
            else if g = fr then none
            else tl.keyframes.lookup g) ∧
          (tl.move_keyframe fr tf).start_frame = tl.start_frame ∧
          (tl.move_keyframe fr tf).end_frame = tl.end_frame ∧
          (tl.move_keyframe fr tf).fps = tl.fps ∧
          (tl.move_keyframe fr tf).current_frame = tl.current_frame ∧
          (tl.move_keyframe fr tf).preview_start = tl.preview_start) := by
  constructor
  · intro h
    rw [Timeline.move_keyframe, h]
  · intro sc h
    refine ⟨?_, by rw [Timeline.move_keyframe, h], by rw [Timeline.move_keyframe, h],
      by rw [Timeline.move_keyframe, h], by rw [Timeline.move_keyframe, h],
      by rw [Timeline.move_keyframe, h]⟩
    intro g
    rw [Timeline.move_keyframe, h]
    show ((tl.keyframes.remove fr).insert tf sc).lookup g = _
    simp only [KeyMap.lookup, KeyMap.insert, KeyMap.remove]
    by_cases h1 : g = tf
    · subst h1
      rw [if_pos (Finset.mem_insert_self _ _), Function.update_same, if_pos rfl]
    · rw [if_neg h1]
      by_cases h2 : g = fr
      · subst h2
        rw [if_pos rfl, if_neg]
        intro hmem
        rcases Finset.mem_insert.mp hmem with hc | hc
        · exact h1 hc
        · exact Finset.not_mem_erase g _ hc
      · rw [if_neg h2]
        by_cases hmem : g ∈ tl.keyframes.keys
        · rw [if_pos (Finset.mem_insert.mpr (Or.inr (Finset.mem_erase.mpr ⟨h2, hmem⟩))),
            Function.update_noteq h1, if_pos hmem]
        · rw [if_neg hmem, if_neg]
          intro hc
          rcases Finset.mem_insert.mp hc with hc2 | hc2
          · exact h1 hc2
          · exact hmem (Finset.mem_of_mem_erase hc2)

/-- Witness for C10 on `tlSole`: moving from the empty frame 2 is a no-op;
moving the keyframe at 1 to 5 relocates exactly that entry. -/
theorem C10_move_keyframe_effect_witness :
    tlSole.keyframes.lookup 2 = none ∧ tlSole.move_keyframe 2 5 = tlSole ∧
      tlSole.keyframes.lookup 1 = some sceneF ∧
      (tlSole.move_keyframe 1 5).keyframes.lookup 5 = some sceneF ∧
      (tlSole.move_keyframe 1 5).keyframes.lookup 1 = none := by
  have hnone : tlSole.keyframes.lookup 2 = none :=
    KeyMap.lookup_eq_none (by decide)
  have hsome : tlSole.keyframes.lookup 1 = some sceneF :=
    KeyMap.lookup_eq_some (by decide)
  have hchar := ((C10_move_keyframe_effect tlSole 1 5).2 sceneF hsome).1
  have h5 := hchar 5
  have h1 := hchar 1
  refine ⟨hnone, (C10_move_keyframe_effect tlSole 2 5).1 hnone, hsome, ?_, ?_⟩
  · simpa using h5
  · simpa using h1

/-! ## Claim C8 -/

/-- C8: `new_render` returns immediately when the request equals the previous
one; returns (dropping the request) when `working` is already set; otherwise
sets `working`, records the request and spawns exactly one background render,
whose completion stores the result into the last-result slot and clears
`working`; and in every reachable state at most one render is in flight. -/
theorem C8_never_two_renders {Rot Env Img : Type} :
    (∀ (pm : PreviewManager Rot Env Img) (scene : Scene Rot Env)
        (resolution : ℕ × ℕ),
      (pm.previous_scene_resolution = some (scene, resolution) →
        pm.new_render scene resolution = pm) ∧
      (pm.previous_scene_resolution ≠ some (scene, resolution) →
        pm.working = true → pm.new_render scene resolution = pm) ∧
      (pm.previous_scene_resolution ≠ some (scene, resolution) →
        pm.working = false → pm.new_render scene resolution =
          ⟨true, pm.previous_render, some (scene, resolution), pm.in_flight + 1⟩)) ∧
    (∀ (pm : PreviewManager Rot Env Img) (render : Img) (duration : ℝ),
      pm.finish_render render duration =
        ⟨false, some (render, duration), pm.previous_scene_resolution,
          pm.in_flight - 1⟩) ∧
    (∀ pm : PreviewManager Rot Env Img, PreviewReachable pm → pm.in_flight ≤ 1) := by
  have key : ∀ pm : PreviewManager Rot Env Img, PreviewReachable pm →
      pm.in_flight ≤ 1 ∧ (pm.working = false → pm.in_flight = 0) := by
    intro pm h
    induction h with
    | init => exact ⟨Nat.zero_le 1, fun _ => rfl⟩
    | new_render pm scene resolution hr ih =>
      rw [PreviewManager.new_render]
      split_ifs with h1 h2
      · exact ih
      · exact ih
      · have hw : pm.working = false := by
          cases hwc : pm.working
          · rfl
          · exact absurd hwc h2
        have h0 : pm.in_flight = 0 := ih.2 hw
        constructor
        · show pm.in_flight + 1 ≤ 1
          omega
        · intro hcontr
          exact absurd hcontr (by simp)
    | finish_render pm render duration hr hflight ih =>
      have h1 := ih.1
      constructor
      · show pm.in_flight - 1 ≤ 1
        omega
      · intro _
        show pm.in_flight - 1 = 0
        omega
  refine ⟨fun pm scene resolution => ⟨fun h => ?_, fun h hw => ?_, fun h hw => ?_⟩,
    fun pm render duration => rfl, fun pm h => (key pm h).1⟩
  · rw [PreviewManager.new_render, if_pos h]
  · rw [PreviewManager.new_render, if_neg h, if_pos hw]
  · rw [PreviewManager.new_render, if_neg h, if_neg (by rw [hw]; exact Bool.false_ne_true)]

/-- Witness for C8 from the default manager: a fresh request spawns exactly
one render, and the default state is reachable with at most one in flight. -/
theorem C8_never_two_renders_witness :
    (PreviewManager.default : PreviewManager Unit Unit Unit).new_render sceneL
        (64, 64) = ⟨true, none, some (sceneL, (64, 64)), 1⟩ ∧
      (PreviewManager.default : PreviewManager Unit Unit Unit).in_flight ≤ 1 := by
  obtain ⟨hbranch, hfin, hinv⟩ := @C8_never_two_renders Unit Unit Unit
  refine ⟨?_, hinv _ PreviewReachable.init⟩
  exact (hbranch PreviewManager.default sceneL (64, 64)).2.2
    (by rw [PreviewManager.default]; exact fun hc => Option.noConfusion hc) rfl

/-! ## Claim C9 -/

theorem render_writes_from_length {Rot Env : Type} (stem ext : String)
    (i : ℕ) (l : List (Frame Rot Env)) :
    (render_writes_from stem ext i l).length = l.length := by
  induction l generalizing i with
  | nil => rfl
  | cons fr rest ih => simp [render_writes_from, ih]

theorem render_writes_from_get {Rot Env : Type} (stem ext : String)
    (l : List (Frame Rot Env)) :
    ∀ (i j : ℕ) (h : j < (render_writes_from stem ext i l).length)
      (hj : j < l.length),
      (render_writes_from stem ext i l).get ⟨j, h⟩ =
        (frame_file_name stem ext (i + j), l.get ⟨j, hj⟩) := by
  induction l with
  | nil =>
    intro i j h hj
    exact absurd hj (Nat.not_lt_zero j)
  | cons fr rest ih =>
    intro i j h hj
    cases j with
    | zero => rfl
    | succ j =>
      have hlt : j < (render_writes_from stem ext (i + 1) rest).length := by
        rw [render_writes_from_length]
        exact Nat.lt_of_succ_lt_succ hj
      have hj2 : j < rest.length := Nat.lt_of_succ_lt_succ hj
      have step : (render_writes_from stem ext i (fr :: rest)).get ⟨j + 1, h⟩ =
          (render_writes_from stem ext (i + 1) rest).get ⟨j, hlt⟩ := rfl
      rw [step, ih (i + 1) j hlt hj2]
      have harith : i + 1 + j = i + (j + 1) := by omega
      rw [harith]
      rfl

theorem intRange_length (a b : ℤ) : (intRange a b).length = (b - a + 1).toNat := by
  rw [intRange, List.length_map, List.length_range]

theorem intRange_get (a b : ℤ) (j : ℕ) (h : j < (intRange a b).length) :
    (intRange a b).get ⟨j, h⟩ = a + j := by
  have hj : j < (b - a + 1).toNat := by rwa [intRange_length] at h
  simp [intRange, List.get_map, List.get_range]

/-- C9: `render_animation` (absent cancellation and save errors) writes its
frames in ascending frame order, and names the file of the `j`-th write
(0-based `j`, ordinal `j+1`) as `<stem>.<NNNNN>.<ext>` where `NNNNN` is the
decimal ordinal left-padded with zeros to a minimum width of 5. -/
theorem C9_render_animation_naming {Rot Env : Type} (slerp : Rot → Rot → ℝ → Rot)
    (tl : Timeline Rot Env) (stem ext : String) (j : ℕ)
    (h : j < (render_animation_writes stem ext (tl.to_animation slerp)).length) :
    ((render_animation_writes stem ext (tl.to_animation slerp)).get ⟨j, h⟩).1 =
        stem ++ "." ++ zero_pad_5 (Nat.repr (j + 1)) ++ "." ++ ext ∧
      5 ≤ (zero_pad_5 (Nat.repr (j + 1))).length ∧
      zero_pad_5 (Nat.repr (j + 1)) =
        String.mk (List.replicate (5 - (Nat.repr (j + 1)).length) '0' ++
          (Nat.repr (j + 1)).data) ∧
      ((render_animation_writes stem ext (tl.to_animation slerp)).get
          ⟨j, h⟩).2.index = tl.start_frame + j ∧
      (∀ (k : ℕ) (hk : k < (render_animation_writes stem ext
          (tl.to_animation slerp)).length), j < k →
        ((render_animation_writes stem ext (tl.to_animation slerp)).get
            ⟨j, h⟩).2.index <
          ((render_animation_writes stem ext (tl.to_animation slerp)).get
            ⟨k, hk⟩).2.index) := by
  have hIdx : ∀ (k : ℕ) (hk : k < (render_animation_writes stem ext
      (tl.to_animation slerp)).length),
      ((render_animation_writes stem ext (tl.to_animation slerp)).get
        ⟨k, hk⟩).2.index = tl.start_frame + k := by
    intro k hk
    have hk2 : k < (tl.to_animation slerp).frames.length := by
      rw [← render_writes_from_length stem ext 0]
      exact hk
    rw [show (render_animation_writes stem ext (tl.to_animation slerp)).get
        ⟨k, hk⟩ = (frame_file_name stem ext (0 + k),
          (tl.to_animation slerp).frames.get ⟨k, hk2⟩) from
      render_writes_from_get stem ext _ 0 k hk hk2]
    have hk3 : k < (intRange tl.start_frame tl.end_frame).length := by
      simpa [Timeline.to_animation] using hk2
    show ((tl.to_animation slerp).frames.get ⟨k, hk2⟩).index = _
    rw [show (tl.to_animation slerp).frames.get ⟨k, hk2⟩ =
        (⟨(intRange tl.start_frame tl.end_frame).get ⟨k, hk3⟩,
          tl.get_scene slerp ((intRange tl.start_frame tl.end_frame).get
            ⟨k, hk3⟩)⟩ : Frame Rot Env) from List.get_map _,
      intRange_get]
  have hj2 : j < (tl.to_animation slerp).frames.length := by
    rw [← render_writes_from_length stem ext 0]
    exact h
  have hname : ((render_animation_writes stem ext (tl.to_animation slerp)).get
      ⟨j, h⟩).1 = frame_file_name stem ext (0 + j) := by
    rw [show (render_animation_writes stem ext (tl.to_animation slerp)).get
        ⟨j, h⟩ = (frame_file_name stem ext (0 + j),
          (tl.to_animation slerp).frames.get ⟨j, hj2⟩) from
      render_writes_from_get stem ext _ 0 j h hj2]
  refine ⟨?_, ?_, ?_, hIdx j h, ?_⟩
  · rw [hname, Nat.zero_add]
    rfl
  · rw [zero_pad_5]
    split_ifs with hlen
    · have : (String.mk (List.replicate (5 - (Nat.repr (j + 1)).length) '0') ++
          Nat.repr (j + 1)).length =
          (List.replicate (5 - (Nat.repr (j + 1)).length) '0').length +
            (Nat.repr (j + 1)).length := String.length_append _ _
      rw [this, List.length_replicate]
      omega
    · omega
  · rw [zero_pad_5]
    split_ifs with hlen
    · cases hrepr : Nat.repr (j + 1) with
      | mk data => rfl
    · have hz : 5 - (Nat.repr (j + 1)).length = 0 := by omega
      rw [hz]
      cases hrepr : Nat.repr (j + 1) with
      | mk data => rfl
  · intro k hk hjk
    rw [hIdx j h, hIdx k hk]
    omega

/-- The write list of the witness animation is nonempty. -/
theorem C9_witness_nonempty :
    0 < (render_animation_writes "render" "png" (tlW.to_animation slerpW)).length := by
  show 0 < (render_writes_from "render" "png" 0 (tlW.to_animation slerpW).frames).length
  rw [render_writes_from_length]
  show 0 < ((intRange tlW.start_frame tlW.end_frame).map _).length
  rw [List.length_map, intRange_length]
  decide

/-- Witness for C9 on `tlW` ("render.png", first write): named
`render.00001.png` and holding frame index `start_frame + 0`. -/
theorem C9_render_animation_naming_witness :
    ((render_animation_writes "render" "png" (tlW.to_animation slerpW)).get
        ⟨0, C9_witness_nonempty⟩).1 =
        "render" ++ "." ++ zero_pad_5 (Nat.repr (0 + 1)) ++ "." ++ "png" ∧
      5 ≤ (zero_pad_5 (Nat.repr (0 + 1))).length ∧
      ((render_animation_writes "render" "png" (tlW.to_animation slerpW)).get
        ⟨0, C9_witness_nonempty⟩).2.index = tlW.start_frame + 0 ∧
      zero_pad_5 (Nat.repr (0 + 1)) = "00001" := by
  have h := C9_render_animation_naming slerpW tlW "render" "png" 0 C9_witness_nonempty
  exact ⟨h.1, h.2.1, h.2.2.2.1, rfl⟩

end BHDiver
